import Mathlib

set_option maxRecDepth 8000

/- Shallow embedding of pyomo/contrib/mindtpy/outer_approximation.py
   (class MindtPy_OA_Solver).  External collaborators that live outside
   this file of the repository (solver adapters, result handlers from
   algorithm_base_class, util helpers) are modelled either as oracle
   functions collected in the Env / SolveEnv records, or, where a claim
   depends on their behaviour, as definitions written from the spec and
   marked as such.  Everything else mirrors the source line by line. -/

/-- An integer assignment as produced by get_integer_solution: the vector
of discrete-variable values, used as the key for cycling detection. -/
abbrev IntSol := List Int

/-- Termination condition reported by a main-problem solve
(pyomo.opt.TerminationCondition, restricted to the cases the loop
distinguishes). -/
inductive MainTc
  | optimal
  | infeasible
  | other
deriving DecidableEq

/-- Terminal states of the iteration controller (spec section 4.5). -/
inductive TermReason
  | converged
  | mainInfeasible
  | cycling
  | limitStop
deriving DecidableEq

/-- Optimization sense of the objective (pyomo.core.maximize / minimize). -/
inductive Sense
  | minimize
  | maximize
deriving DecidableEq

/-- Observable solver-call events emitted by the iteration loop.  A main
solve event records the incumbent and the bound state of the solver at
the moment the call is issued. -/
inductive Event
  | mainSolve (regularized : Bool) (best : Option Nat) (dualBound : Int)
      (dualBoundFirst : Int)
  | subSolve
  | poolSubSolve
  | fixDualBound
deriving DecidableEq

/-- The recognized configuration options read by the embedded code (the
MindtPy ConfigBlock fields used in outer_approximation.py). -/
structure Config where
  add_regularization : Option String
  single_tree : Bool
  add_no_good_cuts : Bool
  use_tabu_list : Bool
  solution_pool : Bool
  num_solution_iteration : Nat
  iteration_limit : Nat
  mip_solver : String
  add_slack : Bool
  threads : Nat
  regularization_mip_threads : Nat
  calculate_dual_at_solution : Bool
  add_cuts_at_incumbent : Bool
  reduce_level_coef : Bool
  use_bb_tree_incumbent : Bool
  mip_regularization_solver : Option String
  heuristic_nonconvex : Bool
  equality_relaxation : Bool
  init_strategy : String
  move_objective : Bool
  fp_projcuts : Bool
  absolute_bound_tolerance : Nat
deriving DecidableEq

/-- The mutable solver state threaded through one run: the attributes of
the MindtPy_OA_Solver object that the embedded code reads or writes. -/
structure SState where
  mip_iter : Nat
  mip_subiter : Nat
  best_solution_found : Option Nat
  best_solution_found_time : Option Nat
  primal_bound : Int
  dual_bound : Int
  dual_bound_progress : List Int
  should_terminate : Bool
  termination_reason : Option TermReason
  integer_list : List IntSol
  curr_int_sol : IntSol
  objective_sense : Sense
deriving DecidableEq

/-- First entry of dual_bound_progress, as read by the source at
self.dual_bound_progress[0]; the list is nonempty in any actual run, so
headD only adds a total default. -/
def dualBoundFirst (s : SState) : Int := s.dual_bound_progress.headD 0

/-- Modelled from the spec: the absolute primal/dual bound gap used by
the convergence rule of section 4.5 (bounds_converged lives in
algorithm_base_class, which is not part of the given sources). -/
def absGap (s : SState) : Nat := (s.primal_bound - s.dual_bound).natAbs

/- ------------------------------------------------------------------ -/
/- check_config, lines 325-364                                        -/
/- ------------------------------------------------------------------ -/

/-- Lines 327-340 of check_config: the add_regularization branch. -/
def check_config_reg (cfg0 : Config) : Config :=
  if cfg0.add_regularization.isSome then
    let cfg1 :=
      if cfg0.add_regularization ∈
          ([some "grad_lag", some "hess_lag", some "hess_only_lag",
            some "sqp_lag"] : List (Option String)) then
        { cfg0 with calculate_dual_at_solution := true }
      else cfg0
    let cfg2 :=
      if cfg1.regularization_mip_threads = 0 ∧ 0 < cfg1.threads then
        { cfg1 with regularization_mip_threads := cfg1.threads }
      else cfg1
    let cfg3 :=
      if cfg2.single_tree then
        let cfg2a := { cfg2 with add_cuts_at_incumbent := true }
        if ¬(cfg2a.reduce_level_coef ∨ cfg2a.use_bb_tree_incumbent) then
          { cfg2a with use_bb_tree_incumbent := true }
        else cfg2a
      else cfg2
    if cfg3.mip_regularization_solver = none then
      { cfg3 with mip_regularization_solver := some cfg3.mip_solver }
    else cfg3
  else cfg0

/-- Modelled from the spec: the base-class configuration check
(_MindtPyAlgorithm.check_config, called on line 364) is not part of the
given sources; the spec attributes no further modification of the
recognized options to it, so it is modelled as the identity. -/
def baseCheckConfig (cfg : Config) : Config := cfg

/-- Lines 352-364 of check_config: the branches after the single-tree
block, the regularization_mip_type selection, and the base-class call.
The second component is the regularization_mip_type attribute set on the
solver object. -/
def check_config_tail (cfg0 : Config) : Config × Option String :=
  let cfg1 :=
    if cfg0.heuristic_nonconvex then
      { cfg0 with equality_relaxation := true, add_slack := true }
    else cfg0
  let cfg2 :=
    if cfg1.equality_relaxation then
      { cfg1 with calculate_dual_at_solution := true }
    else cfg1
  let cfg3 :=
    if cfg2.init_strategy = "FP" ∨ cfg2.add_regularization.isSome then
      { cfg2 with move_objective := true }
    else cfg2
  let rtype : Option String :=
    if cfg3.add_regularization ∈
        ([some "level_L1", some "level_L_infinity", some "grad_lag"] :
          List (Option String)) then
      some "MILP"
    else if cfg3.add_regularization ∈
        ([some "level_L2", some "hess_lag", some "hess_only_lag",
          some "sqp_lag"] : List (Option String)) then
      some "MIQP"
    else none
  (baseCheckConfig cfg3, rtype)

/-- The ValueError message raised on lines 346-347. -/
def lpnlpErrorText : String :=
  "Only cplex_persistent and gurobi_persistent are supported for LP/NLP based Branch and Bound method.Please refer to the MindtPy documentation."

/-- check_config, lines 325-364: threads the config mutations in source
order and raises (Except.error) exactly where the source raises
ValueError. -/
def check_config (cfg0 : Config) : Except String (Config × Option String) :=
  let cfg1 := check_config_reg cfg0
  if cfg1.single_tree then
    let cfg2 := { cfg1 with iteration_limit := 1, add_slack := false }
    if cfg2.mip_solver = "cplex_persistent" ∨
        cfg2.mip_solver = "gurobi_persistent" then
      let cfg3 := if 1 < cfg2.threads then { cfg2 with threads := 1 } else cfg2
      Except.ok (check_config_tail cfg3)
    else
      Except.error lpnlpErrorText
  else
    Except.ok (check_config_tail cfg1)

/- ------------------------------------------------------------------ -/
/- The iteration loop, lines 155-323                                  -/
/- ------------------------------------------------------------------ -/

/-- Oracle functions for the external collaborators called by the loop:
solver adapters and the result handlers of algorithm_base_class, none of
which are part of the given sources.  Each takes and returns the solver
state it may mutate. -/
structure Env where
  solveMain : SState → Option MainTc × SState
  solveMainReg : SState → SState
  handleMainOptimal : SState → SState
  handleMainInfeasible : SState → SState
  handleMainOther : SState → SState
  solveSub : SState → SState
  intSolOfMip : SState → IntSol
  poolEntries : SState → List (Nat × Int)
  poolAssign : Nat → IntSol

/-- Which break statement ended the while loop body. -/
inductive BreakKind
  | mainNone
  | mainInfeasible
  | terminated
  | subTerminated
deriving DecidableEq

/-- Modelled from the spec: algorithm_should_terminate (called on lines
213, 227 and 276 with its cycling machinery) lives in
algorithm_base_class, which is not part of the given sources.  Following
the transition rules of spec section 4.5, in priority order: an already
terminal state stays terminal; iteration counter at the limit gives
LIMIT_STOP; bound gap within tolerance gives CONVERGED; with cycling
checking on, an integer assignment already in the explored set with
neither no-good cuts nor the tabu list enabled gives CYCLING_STOP;
otherwise the run continues and, on the cycling path, the assignment
produced by the preceding main solve is recorded in the explored set. -/
def algorithmShouldTerminate (cfg : Config) (checkCycling : Bool)
    (s : SState) : Bool × SState :=
  if s.should_terminate then (true, s)
  else if cfg.iteration_limit ≤ s.mip_iter then
    (true, { s with termination_reason := some TermReason.limitStop })
  else if absGap s ≤ cfg.absolute_bound_tolerance then
    (true, { s with should_terminate := true,
                    termination_reason := some TermReason.converged })
  else if checkCycling ∧ s.curr_int_sol ∈ s.integer_list ∧
      ¬cfg.add_no_good_cuts ∧ ¬cfg.use_tabu_list then
    (true, { s with should_terminate := true,
                    termination_reason := some TermReason.cycling })
  else
    (false,
      if checkCycling ∧ s.curr_int_sol ∉ s.integer_list then
        { s with integer_list := s.integer_list ++ [s.curr_int_sol] }
      else s)

/-- The event recording a call to solve_main, with the incumbent and
bound state at the moment of the call. -/
def mainSolveEvent (s : SState) (regularized : Bool) : Event :=
  Event.mainSolve regularized s.best_solution_found s.dual_bound
    (dualBoundFirst s)

/-- Lines 195-200: the gated regularized main solve.  Regularization is
issued only when add_regularization is set, a feasible incumbent exists,
single-tree mode is off, and the dual bound has moved from the first
entry of dual_bound_progress. -/
def regPhase (cfg : Config) (env : Env) (s : SState) : List Event × SState :=
  if cfg.add_regularization.isSome ∧ s.best_solution_found.isSome ∧
      ¬cfg.single_tree then
    if s.dual_bound ≠ dualBoundFirst s then
      ([mainSolveEvent s true], env.solveMainReg s)
    else ([], s)
  else ([], s)

/-- Lines 203-212: the single-tree block that solves the subproblem for
a not-yet-explored assignment when regularization is combined with
single-tree mode. -/
def stRegPhase (cfg : Config) (env : Env) (s : SState) : List Event × SState :=
  if cfg.add_regularization.isSome ∧ cfg.single_tree then
    let s1 := { s with curr_int_sol := env.intSolOfMip s }
    if s1.curr_int_sol ∈ s1.integer_list then ([], s1)
    else ([Event.subSolve], env.solveSub s1)
  else ([], s)

/-- Lines 174-212 of the loop body: reset the subiteration counter,
solve the main problem, dispatch its termination condition to the
handlers (sequential mode only), then run the regularization phases. -/
def mainPhase (cfg : Config) (env : Env) (s0 : SState) :
    List Event × SState × Option BreakKind :=
  let s := { s0 with mip_subiter := 0 }
  match env.solveMain s with
  | (none, s1) => ([mainSolveEvent s false], s1, some BreakKind.mainNone)
  | (some tcv, s1) =>
    let hr : SState × Option BreakKind :=
      if cfg.single_tree then (s1, none)
      else
        match tcv with
        | MainTc.optimal => (env.handleMainOptimal s1, none)
        | MainTc.infeasible =>
            (env.handleMainInfeasible s1, some BreakKind.mainInfeasible)
        | MainTc.other => (env.handleMainOther s1, none)
    match hr with
    | (s2, some b) => ([mainSolveEvent s false], s2, some b)
    | (s2, none) =>
      let rp := regPhase cfg env s2
      let sp := stRegPhase cfg env rp.2
      (mainSolveEvent s false :: (rp.1 ++ sp.1), sp.2, none)

/-- Lines 247-248: the solution pool is sorted by objective value, in
reverse order exactly when the objective sense is maximize. -/
def sortPool (sense : Sense) (l : List (Nat × Int)) : List (Nat × Int) :=
  match sense with
  | Sense.minimize => l.mergeSort (fun a b => decide (a.2 ≤ b.2))
  | Sense.maximize => l.mergeSort (fun a b => decide (b.2 ≤ a.2))

/-- Result of the solution-pool for loop: emitted events, final state,
whether the loop broke at the termination check, the unprocessed tail of
the pool, and the final value of the counter variable. -/
structure PoolRes where
  events : List Event
  state : SState
  brokeTerm : Bool
  remaining : List (Nat × Int)
  counter : Nat
deriving DecidableEq

/-- Lines 250-281: the for loop over the sorted solution pool.  The
first entry (counter 0) is solved directly; later entries are copied
from the pool, skipped when their integer assignment was already
explored, and otherwise recorded and solved; the loop breaks at the
termination check or once the counter reaches num_solution_iteration. -/
def poolLoop (cfg : Config) (env : Env) :
    List (Nat × Int) → Nat → SState → PoolRes
  | [], counter, s => ⟨[], s, false, [], counter⟩
  | (name, _obj) :: rest, counter, s =>
    if 1 ≤ counter then
      let s1 := { s with curr_int_sol := env.poolAssign name }
      if s1.curr_int_sol ∈ s1.integer_list then
        poolLoop cfg env rest counter s1
      else
        let s2 :=
          { s1 with integer_list := s1.integer_list ++ [s1.curr_int_sol] }
        let s3 := env.solveSub s2
        let p := algorithmShouldTerminate cfg false s3
        if p.1 then ⟨[Event.poolSubSolve], p.2, true, rest, counter + 1⟩
        else if cfg.num_solution_iteration ≤ counter + 1 then
          ⟨[Event.poolSubSolve], p.2, false, rest, counter + 1⟩
        else
          let r := poolLoop cfg env rest (counter + 1) p.2
          ⟨Event.poolSubSolve :: r.events, r.state, r.brokeTerm, r.remaining,
            r.counter⟩
    else
      let s3 := env.solveSub s
      let p := algorithmShouldTerminate cfg false s3
      if p.1 then ⟨[Event.poolSubSolve], p.2, true, rest, counter + 1⟩
      else if cfg.num_solution_iteration ≤ counter + 1 then
        ⟨[Event.poolSubSolve], p.2, false, rest, counter + 1⟩
      else
        let r := poolLoop cfg env rest (counter + 1) p.2
        ⟨Event.poolSubSolve :: r.events, r.state, r.brokeTerm, r.remaining,
          r.counter⟩

/-- Lines 216-281: the subproblem phase of the loop body.  In
single-tree mode there is nothing to do; otherwise either one subproblem
is solved followed by the termination check, or the solution pool is
enumerated.  A break inside the pool for loop does not break the outer
while loop, so the pool branch never returns a BreakKind. -/
def subPhase (cfg : Config) (env : Env) (s : SState) :
    List Event × SState × Option BreakKind :=
  if cfg.single_tree then ([], s, none)
  else if ¬cfg.solution_pool then
    let s1 := env.solveSub s
    let p := algorithmShouldTerminate cfg false s1
    ([Event.subSolve], p.2,
      if p.1 then some BreakKind.subTerminated else none)
  else
    let entries := sortPool s.objective_sense (env.poolEntries s)
    let r := poolLoop cfg env entries 0 s
    (r.events, r.state, none)

/-- One iteration of the while loop of MindtPy_iteration_loop: main
phase, the termination check with cycling detection of line 213, then
the subproblem phase. -/
def loopBody (cfg : Config) (env : Env) (s : SState) :
    List Event × SState × Option BreakKind :=
  match mainPhase cfg env s with
  | (ev, s1, some b) => (ev, s1, some b)
  | (ev, s1, none) =>
    let p := algorithmShouldTerminate cfg true s1
    if p.1 then (ev, p.2, some BreakKind.terminated)
    else
      match subPhase cfg env p.2 with
      | (ev2, s2, br) => (ev ++ ev2, s2, br)

/-- The while loop of lines 172-316, indexed by fuel: the loop runs
while mip_iter < iteration_limit, and stops early at any break. -/
def runLoop (cfg : Config) (env : Env) : Nat → SState → List Event × SState
  | 0, s => ([], s)
  | Nat.succ fuel, s =>
    if s.mip_iter < cfg.iteration_limit then
      match loopBody cfg env s with
      | (ev, s1, some _) => (ev, s1)
      | (ev, s1, none) =>
        let r := runLoop cfg env fuel s1
        (ev ++ r.1, r.2)
    else ([], s)

/-- MindtPy_iteration_loop, lines 171-323: the while loop followed by
the post-loop bound correction of lines 318-321, which runs exactly when
no-good cuts or the tabu list are enabled, the loop did not set
should_terminate, and add_regularization is None. -/
def iterationLoop (cfg : Config) (env : Env) (fuel : Nat) (s : SState) :
    List Event × SState :=
  let r := runLoop cfg env fuel s
  if (cfg.add_no_good_cuts ∨ cfg.use_tabu_list) ∧ ¬r.2.should_terminate ∧
      cfg.add_regularization = none then
    (r.1 ++ [Event.fixDualBound], r.2)
  else r

/- ------------------------------------------------------------------ -/
/- Model objects: constraints, objectives, the working model           -/
/- ------------------------------------------------------------------ -/

/-- A constraint: an activity flag and an abstract body identifier. -/
structure Cstr where
  active : Bool
  body : Nat
deriving DecidableEq

/-- An objective: an activity flag, its sense, and the polynomial degree
of its expression (none when the expression is not polynomial). -/
structure Obj where
  active : Bool
  sense : Sense
  degree : Option Nat
deriving DecidableEq

/-- A model as seen by initialize_mip_problem: its constraints, its
objectives, the auxiliary ConstraintList containers attached to
MindtPy_utils.cuts (each a list of member constraints), the dual suffix
activity, and a marker for the variable bounds added by add_var_bound. -/
structure WModel where
  cons : List Cstr
  objs : List Obj
  cutLists : List (List Cstr)
  dualActive : Bool
  boundsAdded : Bool
deriving DecidableEq

/-- Modelled from the spec: add_var_bound (a util helper, not part of
the given sources) adds bounds to unbounded variables appearing in
nonlinear constraints; it adds or removes no constraint and no
objective. -/
def addVarBound (wm : WModel) : WModel := { wm with boundsAdded := true }

/-- next(m.component_data_objects(Objective, active=True)).deactivate():
deactivate the first active objective; none when no objective is active
(the source call would raise StopIteration). -/
def deactivateFirstActiveObj : List Obj → Option (List Obj)
  | [] => none
  | o :: os =>
    if o.active then some ({ o with active := false } :: os)
    else (deactivateFirstActiveObj os).map (o :: ·)

/-- initialize_mip_problem, lines 367-391: clone the working model into
the mip, deactivate its first active objective, deactivate the dual
suffix when duals are calculated, attach the empty oa_cuts list, and in
feasibility-pump mode attach the empty orthogonality-cut lists (the one
guarded by fp_projcuts is attached to the working model itself).
Returns (new working model, mip). -/
def initialize_mip_problem (cfg : Config) (wm0 : WModel) :
    Option (WModel × WModel) :=
  let wm := if cfg.single_tree then addVarBound wm0 else wm0
  match deactivateFirstActiveObj wm.objs with
  | none => none
  | some objs1 =>
    let mip0 : WModel := { wm with objs := objs1 }
    let mip1 := if cfg.calculate_dual_at_solution then
                  { mip0 with dualActive := false }
                else mip0
    let mip2 := { mip1 with cutLists := mip1.cutLists ++ [[]] }
    let mip3 := if cfg.init_strategy = "FP" then
                  { mip2 with cutLists := mip2.cutLists ++ [[]] }
                else mip2
    let wm1 := if cfg.init_strategy = "FP" ∧ cfg.fp_projcuts then
                 { wm with cutLists := wm.cutLists ++ [[]] }
               else wm
    some (wm1, mip3)

/-- Number of constraint members of a model, counting the members of
every attached ConstraintList. -/
def conCount (m : WModel) : Nat :=
  m.cons.length + (m.cutLists.map List.length).sum

/-- The senses of the objectives of a model, in declaration order. -/
def objSenses (m : WModel) : List Sense := m.objs.map Obj.sense

/- ------------------------------------------------------------------ -/
/- The epigraph branch of solve, lines 110-115                        -/
/- ------------------------------------------------------------------ -/

/-- The MindtPy_utils attributes read by the epigraph branch: the
objective list, the epigraph constraint activity, and the epigraph
objective activity. -/
structure MUtils where
  objective_list : List Obj
  objective_constr_active : Bool
  objective_active : Bool
deriving DecidableEq

/-- polynomial_degree() in self.mip_objective_polynomial_degree: a
nonpolynomial expression (degree none) is never in the handleable set of
integers. -/
def degreeMem (d : Option Nat) (handleable : List Nat) : Prop :=
  match d with
  | some n => n ∈ handleable
  | none => False

instance (d : Option Nat) (handleable : List Nat) :
    Decidable (degreeMem d handleable) := by
  cases d <;> simp [degreeMem] <;> infer_instance

/-- Lines 112-115 of solve: when the polynomial degree of
objective_list[0] is in the handleable set and add_regularization is
set, activate objective_list[0] and deactivate both the epigraph
constraint and the epigraph objective; otherwise leave everything as it
is.  The source indexes objective_list[0], so an empty objective list
gives none (IndexError). -/
def epigraphObjectiveStep (handleable : List Nat) (reg : Option String)
    (M : MUtils) : Option MUtils :=
  match M.objective_list with
  | [] => none
  | o :: os =>
    if degreeMem o.degree handleable ∧ reg.isSome then
      some { M with objective_list := { o with active := true } :: os,
                    objective_constr_active := false,
                    objective_active := false }
    else some M

/- ------------------------------------------------------------------ -/
/- deactivate_no_good_cuts_when_fixing_bound, lines 412-418           -/
/- ------------------------------------------------------------------ -/

/-- Replace the element at a position by the image under f (identity
outside the list). -/
def modifyAt : List Cstr → Nat → (Cstr → Cstr) → List Cstr
  | [], _, _ => []
  | c :: cs, 0, f => f c :: cs
  | c :: cs, Nat.succ n, f => c :: modifyAt cs n f

/-- no_good_cuts[i].deactivate() on a pyomo ConstraintList, whose
members are indexed starting from 1; none when the index is out of range
(the source access would raise KeyError). -/
def conListDeactivate (l : List Cstr) (i : Nat) : Option (List Cstr) :=
  if 1 ≤ i ∧ i ≤ l.length then
    some (modifyAt l (i - 1) (fun c => { c with active := false }))
  else none

/-- deactivate_no_good_cuts_when_fixing_bound, lines 412-418: with
add_no_good_cuts set, deactivate no_good_cuts[len(no_good_cuts)] (the
last member of the 1-indexed ConstraintList); with use_tabu_list set,
drop the last element of integer_list. -/
def deactivate_no_good_cuts_when_fixing_bound (cfg : Config)
    (no_good_cuts : List Cstr) (integer_list : List IntSol) :
    Option (List Cstr × List IntSol) :=
  match (if cfg.add_no_good_cuts then
           conListDeactivate no_good_cuts no_good_cuts.length
         else some no_good_cuts) with
  | none => none
  | some ngc =>
    some (ngc, if cfg.use_tabu_list then integer_list.dropLast
               else integer_list)

/- ------------------------------------------------------------------ -/
/- solve, lines 57-151                                                -/
/- ------------------------------------------------------------------ -/

/-- Oracle functions for the collaborators called by solve before and
after the loop: set_up_solve_data builds fresh solve data from the model
and config, model_is_valid validates the model, process_objective is the
upstream objective reformulation, and the initialization strategy runs
before the loop. -/
structure SolveEnv where
  setUpSolveData : SState
  modelIsValid : Bool
  processObjective : MUtils → MUtils
  runInitStrategy : SState → SState
  loopEnv : Env

/-- solve, lines 57-151, as the phase sequence relevant to the embedded
claims: check_config; set_up_solve_data (whose fresh solve data does not
include the two incumbent attributes, which persist on the solver object
across calls, per the source comment on lines 121-122); the model
validity early return; process_objective and the epigraph branch; the
unconditional reset of best_solution_found and best_solution_found_time;
initialize_mip_problem; the initialization strategy; the iteration loop.
Returns the emitted events and the final state (none when the model is
invalid, mirroring the bare return of line 90). -/
def solve (cfg0 : Config) (senv : SolveEnv) (M0 : MUtils) (wm : WModel)
    (handleable : List Nat) (prevBest : Option Nat)
    (prevBestTime : Option Nat) (fuel : Nat) :
    List Event × Except String (Option SState) :=
  match check_config cfg0 with
  | Except.error e => ([], Except.error e)
  | Except.ok (cfg, _rtype) =>
    let s0 := { senv.setUpSolveData with
                best_solution_found := prevBest
                best_solution_found_time := prevBestTime }
    if ¬senv.modelIsValid then ([], Except.ok none)
    else
      let M1 := senv.processObjective M0
      match epigraphObjectiveStep handleable cfg.add_regularization M1 with
      | none => ([], Except.error "empty objective_list")
      | some _M2 =>
        let s1 := { s0 with
                    best_solution_found := none
                    best_solution_found_time := none }
        match initialize_mip_problem cfg wm with
        | none => ([], Except.error "no active objective")
        | some (_wm1, _mip) =>
          let s2 := senv.runInitStrategy s1
          let r := iterationLoop cfg senv.loopEnv fuel s2
          (r.1, Except.ok (some r.2))

/- ------------------------------------------------------------------ -/
/- Helper lemmas                                                      -/
/- ------------------------------------------------------------------ -/

theorem modifyAt_length (l : List Cstr) (i : Nat) (f : Cstr → Cstr) :
    (modifyAt l i f).length = l.length := by
  induction l generalizing i with
  | nil => rfl
  | cons c cs ih =>
    cases i with
    | zero => rfl
    | succ n => simp [modifyAt, ih]

theorem modifyAt_getElem?_ne (l : List Cstr) (i : Nat) (f : Cstr → Cstr)
    (j : Nat) (h : j ≠ i) : (modifyAt l i f)[j]? = l[j]? := by
  induction l generalizing i j with
  | nil => rfl
  | cons c cs ih =>
    cases i with
    | zero =>
      cases j with
      | zero => exact absurd rfl h
      | succ m => simp [modifyAt]
    | succ n =>
      cases j with
      | zero => simp [modifyAt]
      | succ m => simpa [modifyAt] using ih n m (by omega)

theorem modifyAt_getElem?_eq (l : List Cstr) (i : Nat) (f : Cstr → Cstr) :
    (modifyAt l i f)[i]? = (l[i]?).map f := by
  induction l generalizing i with
  | nil => rfl
  | cons c cs ih =>
    cases i with
    | zero => simp [modifyAt]
    | succ n => simpa [modifyAt] using ih n

theorem deactivateFirstActiveObj_isSome (l : List Obj)
    (h : ∃ o ∈ l, o.active = true) :
    (deactivateFirstActiveObj l).isSome = true := by
  induction l with
  | nil => simp at h
  | cons o os ih =>
    by_cases ho : o.active = true
    · simp [deactivateFirstActiveObj, ho]
    · rcases h with ⟨o1, hmem, hact⟩
      rcases List.mem_cons.mp hmem with rfl | hmem1
      · exact absurd hact ho
      · have := ih ⟨o1, hmem1, hact⟩
        simp [deactivateFirstActiveObj, ho]
        rcases Option.isSome_iff_exists.mp this with ⟨l1, hl1⟩
        simp [hl1]

theorem deactivateFirstActiveObj_senses (l l1 : List Obj)
    (h : deactivateFirstActiveObj l = some l1) :
    l1.map Obj.sense = l.map Obj.sense := by
  induction l generalizing l1 with
  | nil => simp [deactivateFirstActiveObj] at h
  | cons o os ih =>
    by_cases ho : o.active = true
    · simp [deactivateFirstActiveObj, ho] at h
      subst h
      rfl
    · simp [deactivateFirstActiveObj, ho] at h
      rcases h with ⟨os1, hos1, rfl⟩
      simpa using ih os1 hos1

/- ------------------------------------------------------------------ -/
/- Claim C3                                                           -/
/- ------------------------------------------------------------------ -/

/-- C3: after objective processing, the epigraph reformulation is undone
(objective_list[0] activated, the epigraph constraint and the epigraph
objective deactivated) exactly when the polynomial degree of
objective_list[0] is in the handleable set and add_regularization is not
None; in every other case the epigraph form is retained, that is, the
model is returned unchanged. -/
theorem mindtpy_C3_epigraph_switch (handleable : List Nat)
    (reg : Option String) (M : MUtils) (o : Obj) (os : List Obj)
    (h : M.objective_list = o :: os) :
    (degreeMem o.degree handleable ∧ reg.isSome = true →
      epigraphObjectiveStep handleable reg M =
        some { M with
               objective_list := { o with active := true } :: os
               objective_constr_active := false
               objective_active := false }) ∧
    (¬(degreeMem o.degree handleable ∧ reg.isSome = true) →
      epigraphObjectiveStep handleable reg M = some M) := by
  have hstep : epigraphObjectiveStep handleable reg M =
      if degreeMem o.degree handleable ∧ reg.isSome = true then
        some { M with
               objective_list := { o with active := true } :: os
               objective_constr_active := false
               objective_active := false }
      else some M := by
    unfold epigraphObjectiveStep
    rw [h]
  constructor
  · intro hc
    rw [hstep, if_pos hc]
  · intro hc
    rw [hstep, if_neg hc]

/-- Witness for C3 at a concrete input: a linear (degree 1) original
objective with regularization requested gets activated while both
epigraph components are deactivated. -/
theorem mindtpy_C3_epigraph_switch_witness :
    epigraphObjectiveStep [0, 1] (some "level_L1")
      ⟨[⟨false, Sense.minimize, some 1⟩], true, true⟩ =
      some ⟨[⟨true, Sense.minimize, some 1⟩], false, false⟩ := by
  have h := (mindtpy_C3_epigraph_switch [0, 1] (some "level_L1")
    ⟨[⟨false, Sense.minimize, some 1⟩], true, true⟩
    ⟨false, Sense.minimize, some 1⟩ [] rfl).1 ⟨by decide, by decide⟩
  simpa using h

/- ------------------------------------------------------------------ -/
/- Claim C5                                                           -/
/- ------------------------------------------------------------------ -/

/-- C5: the bound-correction eviction removes only the most recent entry
of each collection.  With add_no_good_cuts set it deactivates exactly
the last member of the no-good cut list (length preserved, every earlier
member unchanged, the last member kept with only its activity cleared);
with use_tabu_list set it removes exactly the last element of
integer_list; a collection whose flag is off is untouched. -/
theorem mindtpy_C5_eviction_last_only (cfg : Config) (l : List Cstr)
    (il : List IntSol) (hne : cfg.add_no_good_cuts = true → l ≠ []) :
    ∃ ngc il2,
      deactivate_no_good_cuts_when_fixing_bound cfg l il = some (ngc, il2) ∧
      (cfg.add_no_good_cuts = true →
        ngc.length = l.length ∧
        (∀ j, j + 1 < l.length → ngc[j]? = l[j]?) ∧
        ngc[l.length - 1]? =
          (l[l.length - 1]?).map (fun c => { c with active := false })) ∧
      (cfg.add_no_good_cuts = false → ngc = l) ∧
      (cfg.use_tabu_list = true → il2 = il.dropLast) ∧
      (cfg.use_tabu_list = false → il2 = il) := by
  by_cases hng : cfg.add_no_good_cuts = true
  · have hl : l ≠ [] := hne hng
    have hlen : 1 ≤ l.length := by
      cases l with
      | nil => exact absurd rfl hl
      | cons a as => simp
    refine ⟨modifyAt l (l.length - 1) (fun c => { c with active := false }),
      if cfg.use_tabu_list then il.dropLast else il, ?_, ?_, ?_, ?_, ?_⟩
    · unfold deactivate_no_good_cuts_when_fixing_bound conListDeactivate
      rw [if_pos hng, if_pos ⟨hlen, le_refl _⟩]
    · intro _
      refine ⟨modifyAt_length l _ _, ?_, ?_⟩
      · intro j hj
        exact modifyAt_getElem?_ne l _ _ j (by omega)
      · exact modifyAt_getElem?_eq l _ _
    · intro hng2
      exact absurd hng (by simp [hng2])
    · intro ht
      rw [if_pos ht]
    · intro ht
      rw [if_neg (by simp [ht])]
  · have hng2 : cfg.add_no_good_cuts = false := by
      cases h : cfg.add_no_good_cuts
      · rfl
      · exact absurd h hng
    refine ⟨l, if cfg.use_tabu_list then il.dropLast else il, ?_, ?_, ?_, ?_, ?_⟩
    · unfold deactivate_no_good_cuts_when_fixing_bound
      rw [if_neg (by simp [hng2])]
    · intro h
      exact absurd h hng
    · intro _
      rfl
    · intro ht
      rw [if_pos ht]
    · intro ht
      rw [if_neg (by simp [ht])]

/-- A baseline configuration used as the starting point of concrete
witnesses: every flag off, plain sequential outer approximation. -/
def cfgBase : Config :=
  { add_regularization := none, single_tree := false,
    add_no_good_cuts := false, use_tabu_list := false,
    solution_pool := false, num_solution_iteration := 5,
    iteration_limit := 50, mip_solver := "glpk", add_slack := true,
    threads := 0, regularization_mip_threads := 0,
    calculate_dual_at_solution := false, add_cuts_at_incumbent := false,
    reduce_level_coef := false, use_bb_tree_incumbent := false,
    mip_regularization_solver := none, heuristic_nonconvex := false,
    equality_relaxation := false, init_strategy := "rNLP",
    move_objective := false, fp_projcuts := false,
    absolute_bound_tolerance := 0 }

/-- Concrete configuration for the C5 witness: both eviction flags set. -/
def cfg5w : Config :=
  { cfgBase with add_no_good_cuts := true, use_tabu_list := true }

/-- Concrete no-good cut list for the C5 witness. -/
def ngc5w : List Cstr := [⟨true, 10⟩, ⟨true, 11⟩]

/-- Concrete explored-assignment list for the C5 witness. -/
def il5w : List IntSol := [[0], [1]]

/-- Witness for C5 at a concrete input: both flags set, a two-cut list
and a two-assignment history. -/
theorem mindtpy_C5_eviction_last_only_witness :
    (cfg5w.add_no_good_cuts = true → ngc5w ≠ []) ∧
    (∃ ngc il2,
      deactivate_no_good_cuts_when_fixing_bound cfg5w ngc5w il5w =
        some (ngc, il2) ∧
      (cfg5w.add_no_good_cuts = true →
        ngc.length = ngc5w.length ∧
        (∀ j, j + 1 < ngc5w.length → ngc[j]? = ngc5w[j]?) ∧
        ngc[ngc5w.length - 1]? =
          (ngc5w[ngc5w.length - 1]?).map
            (fun c => { c with active := false })) ∧
      (cfg5w.add_no_good_cuts = false → ngc = ngc5w) ∧
      (cfg5w.use_tabu_list = true → il2 = il5w.dropLast) ∧
      (cfg5w.use_tabu_list = false → il2 = il5w)) :=
  ⟨fun _ => by decide,
    mindtpy_C5_eviction_last_only cfg5w ngc5w il5w (fun _ => by decide)⟩

/- ------------------------------------------------------------------ -/
/- Claim C9                                                           -/
/- ------------------------------------------------------------------ -/

theorem initialize_mip_problem_eq (cfg : Config) (wm : WModel)
    (objs1 : List Obj) (h : deactivateFirstActiveObj wm.objs = some objs1) :
    ∃ wmOut mipOut,
      initialize_mip_problem cfg wm = some (wmOut, mipOut) ∧
      wmOut.objs = wm.objs ∧ wmOut.cons = wm.cons ∧
      (wmOut.cutLists = wm.cutLists ∨ wmOut.cutLists = wm.cutLists ++ [[]]) ∧
      mipOut.objs = objs1 ∧ mipOut.cons = wm.cons ∧
      (mipOut.cutLists = wm.cutLists ++ [[]] ∨
        mipOut.cutLists = wm.cutLists ++ [[]] ++ [[]]) := by
  have hpre_objs : (if cfg.single_tree then addVarBound wm else wm).objs =
      wm.objs := by
    split <;> rfl
  have hpre_cons : (if cfg.single_tree then addVarBound wm else wm).cons =
      wm.cons := by
    split <;> rfl
  have hpre_cuts : (if cfg.single_tree then addVarBound wm else wm).cutLists =
      wm.cutLists := by
    split <;> rfl
  simp only [initialize_mip_problem]
  rw [hpre_objs, h]
  refine ⟨_, _, rfl, ?_, ?_, ?_, ?_, ?_, ?_⟩
  · split <;> simp [hpre_objs]
  · split <;> simp [hpre_cons]
  · split
    · right
      simp [hpre_cuts]
    · left
      exact hpre_cuts
  · split <;> split <;> rfl
  · split <;> split <;> simp [hpre_cons]
  · split
    · right
      split <;> simp [hpre_cuts]
    · left
      split <;> simp [hpre_cuts]

/-- C9: the model split is idempotent in its observable output.  Calling
initialize_mip_problem twice in a row, the second time on the working
model returned by the first call, succeeds both times and yields relaxed
MIP models with identical constraint counts and the same objective
senses. -/
theorem mindtpy_C9_idempotent_split (cfg : Config) (wm0 : WModel)
    (h : ∃ o ∈ wm0.objs, o.active = true) :
    ∃ wm1 mip1 wm2 mip2,
      initialize_mip_problem cfg wm0 = some (wm1, mip1) ∧
      initialize_mip_problem cfg wm1 = some (wm2, mip2) ∧
      conCount mip1 = conCount mip2 ∧ objSenses mip1 = objSenses mip2 := by
  obtain ⟨objs1, hobjs1⟩ := Option.isSome_iff_exists.mp
    (deactivateFirstActiveObj_isSome wm0.objs h)
  obtain ⟨wm1, mip1, he1, hwObjs, hwCons, hwCuts, hmObjs, hmCons, hmCuts⟩ :=
    initialize_mip_problem_eq cfg wm0 objs1 hobjs1
  have hobjs2 : deactivateFirstActiveObj wm1.objs = some objs1 := by
    rw [hwObjs]
    exact hobjs1
  obtain ⟨wm2, mip2, he2, _, _, _, hm2Objs, hm2Cons, hm2Cuts⟩ :=
    initialize_mip_problem_eq cfg wm1 objs1 hobjs2
  refine ⟨wm1, mip1, wm2, mip2, he1, he2, ?_, ?_⟩
  · unfold conCount
    rw [hmCons, hm2Cons, hwCons]
    rcases hmCuts with h1 | h1 <;> rcases hm2Cuts with h2 | h2 <;>
      rcases hwCuts with h3 | h3 <;> rw [h1, h2, h3] <;> simp
  · unfold objSenses
    rw [hmObjs, hm2Objs]

/-- Concrete working model for the C9 witness: one active constraint and
one active minimization objective. -/
def wm9w : WModel :=
  { cons := [⟨true, 5⟩], objs := [⟨true, Sense.minimize, some 1⟩],
    cutLists := [], dualActive := true, boundsAdded := false }

/-- Witness for C9 at a concrete input. -/
theorem mindtpy_C9_idempotent_split_witness :
    (∃ o ∈ wm9w.objs, o.active = true) ∧
    (∃ wm1 mip1 wm2 mip2,
      initialize_mip_problem cfgBase wm9w = some (wm1, mip1) ∧
      initialize_mip_problem cfgBase wm1 = some (wm2, mip2) ∧
      conCount mip1 = conCount mip2 ∧ objSenses mip1 = objSenses mip2) :=
  ⟨by decide, mindtpy_C9_idempotent_split cfgBase wm9w (by decide)⟩

/- ------------------------------------------------------------------ -/
/- Claim C10                                                          -/
/- ------------------------------------------------------------------ -/

/-- C10: the outcome of solve does not depend on the incumbent left over
from a previous call on the same solver object: solve resets
best_solution_found and best_solution_found_time to None before
initializing the MIP problem, so its events and result are identical for
any two values of the persisted incumbent attributes. -/
theorem mindtpy_C10_incumbent_reset (cfg0 : Config) (senv : SolveEnv)
    (M0 : MUtils) (wm : WModel) (handleable : List Nat)
    (p1 t1 p2 t2 : Option Nat) (fuel : Nat) :
    solve cfg0 senv M0 wm handleable p1 t1 fuel =
      solve cfg0 senv M0 wm handleable p2 t2 fuel := by
  unfold solve
  cases check_config cfg0 with
  | error e => rfl
  | ok out => rfl

/- ------------------------------------------------------------------ -/
/- Event classification for the iteration loop                        -/
/- ------------------------------------------------------------------ -/

theorem regPhase_mem (cfg : Config) (env : Env) (s : SState) (e : Event)
    (he : e ∈ (regPhase cfg env s).1) :
    e = mainSolveEvent s true ∧ s.best_solution_found.isSome = true ∧
      s.dual_bound ≠ dualBoundFirst s ∧
      cfg.add_regularization.isSome = true := by
  unfold regPhase at he
  split at he
  next hcond =>
    split at he
    next hne =>
      simp only [List.mem_singleton] at he
      exact ⟨he, hcond.2.1, hne, hcond.1⟩
    next hne => simp at he
  next hcond => simp at he

theorem stRegPhase_mem (cfg : Config) (env : Env) (s : SState) (e : Event)
    (he : e ∈ (stRegPhase cfg env s).1) : e = Event.subSolve := by
  simp only [stRegPhase] at he
  repeat' split at he
  all_goals first
    | exact absurd he (List.not_mem_nil e)
    | (simp only [List.mem_singleton] at he
       exact he)

theorem mainPhase_class (cfg : Config) (env : Env) (s : SState) (e : Event)
    (he : e ∈ (mainPhase cfg env s).1) :
    (∃ t, e = mainSolveEvent t false) ∨ e = Event.subSolve ∨
    (∃ t, e = mainSolveEvent t true ∧ t.best_solution_found.isSome = true ∧
      t.dual_bound ≠ dualBoundFirst t ∧
      cfg.add_regularization.isSome = true) := by
  simp only [mainPhase] at he
  split at he
  next => exact Or.inl ⟨_, by simpa using he⟩
  next s1 tcv s2 heq =>
    split at he
    next => exact Or.inl ⟨_, by simpa using he⟩
    next =>
      simp only [List.mem_cons, List.mem_append] at he
      rcases he with rfl | he | he
      · exact Or.inl ⟨_, rfl⟩
      · rcases regPhase_mem cfg env _ e he with ⟨rfl, hb, hd, hr⟩
        exact Or.inr (Or.inr ⟨_, rfl, hb, hd, hr⟩)
      · exact Or.inr (Or.inl (stRegPhase_mem cfg env _ e he))

theorem poolLoop_mem (cfg : Config) (env : Env) (l : List (Nat × Int))
    (counter : Nat) (s : SState) (e : Event)
    (he : e ∈ (poolLoop cfg env l counter s).events) :
    e = Event.poolSubSolve := by
  induction l generalizing counter s with
  | nil => simp [poolLoop] at he
  | cons p rest ih =>
    rcases p with ⟨name, obj⟩
    simp only [poolLoop] at he
    repeat' split at he
    all_goals first
      | exact absurd he (List.not_mem_nil e)
      | (simp only [List.mem_singleton] at he
         exact he)
      | exact ih _ _ he
      | (simp only [List.mem_cons] at he
         rcases he with rfl | he
         · rfl
         · exact ih _ _ he)

theorem subPhase_mem (cfg : Config) (env : Env) (s : SState) (e : Event)
    (he : e ∈ (subPhase cfg env s).1) :
    e = Event.subSolve ∨
      (e = Event.poolSubSolve ∧ cfg.single_tree = false) := by
  unfold subPhase at he
  split at he
  next => simp at he
  next hst =>
    split at he
    next => exact Or.inl (by simpa using he)
    next =>
      refine Or.inr ⟨poolLoop_mem cfg env _ _ _ e he, ?_⟩
      simpa using hst

theorem loopBody_class (cfg : Config) (env : Env) (s : SState) (e : Event)
    (he : e ∈ (loopBody cfg env s).1) :
    (∃ t, e = mainSolveEvent t false) ∨ e = Event.subSolve ∨
    (e = Event.poolSubSolve ∧ cfg.single_tree = false) ∨
    (∃ t, e = mainSolveEvent t true ∧ t.best_solution_found.isSome = true ∧
      t.dual_bound ≠ dualBoundFirst t ∧
      cfg.add_regularization.isSome = true) := by
  simp only [loopBody] at he
  split at he
  next ev s1 b heq =>
    have hev : e ∈ (mainPhase cfg env s).1 := by rw [heq]; exact he
    rcases mainPhase_class cfg env s e hev with h | h | h
    · exact Or.inl h
    · exact Or.inr (Or.inl h)
    · exact Or.inr (Or.inr (Or.inr h))
  next ev s1 heq =>
    have hmp : (mainPhase cfg env s).1 = ev := by rw [heq]
    split at he
    next =>
      rw [← hmp] at he
      rcases mainPhase_class cfg env s e he with h | h | h
      · exact Or.inl h
      · exact Or.inr (Or.inl h)
      · exact Or.inr (Or.inr (Or.inr h))
    next =>
      have he2 : e ∈ ev ++
          (subPhase cfg env (algorithmShouldTerminate cfg true s1).2).1 := he
      simp only [List.mem_append] at he2
      rcases he2 with he2 | he2
      · rw [← hmp] at he2
        rcases mainPhase_class cfg env s e he2 with h | h | h
        · exact Or.inl h
        · exact Or.inr (Or.inl h)
        · exact Or.inr (Or.inr (Or.inr h))
      · rcases subPhase_mem cfg env _ e he2 with h | h
        · exact Or.inr (Or.inl h)
        · exact Or.inr (Or.inr (Or.inl h))

theorem runLoop_class (cfg : Config) (env : Env) (fuel : Nat) (s : SState)
    (e : Event) (he : e ∈ (runLoop cfg env fuel s).1) :
    (∃ t, e = mainSolveEvent t false) ∨ e = Event.subSolve ∨
    (e = Event.poolSubSolve ∧ cfg.single_tree = false) ∨
    (∃ t, e = mainSolveEvent t true ∧ t.best_solution_found.isSome = true ∧
      t.dual_bound ≠ dualBoundFirst t ∧
      cfg.add_regularization.isSome = true) := by
  induction fuel generalizing s with
  | zero => simp [runLoop] at he
  | succ n ih =>
    simp only [runLoop] at he
    split at he
    next =>
      split at he
      next ev s1 b heq =>
        have hev : e ∈ (loopBody cfg env s).1 := by rw [heq]; exact he
        exact loopBody_class cfg env s e hev
      next ev s1 heq =>
        simp only [List.mem_append] at he
        rcases he with he | he
        · have hev : e ∈ (loopBody cfg env s).1 := by rw [heq]; exact he
          exact loopBody_class cfg env s e hev
        · exact ih s1 he
    next => simp at he

/-- Recognizer for main-solve events. -/
def isMainSolveEv : Event → Bool
  | Event.mainSolve _ _ _ _ => true
  | _ => false

/-- The regularization flag of an event (false for non main-solve
events). -/
def evRegularized : Event → Bool
  | Event.mainSolve r _ _ _ => r
  | _ => false

theorem mainPhase_head (cfg : Config) (env : Env) (s : SState) :
    ∃ rest, (mainPhase cfg env s).1 =
      mainSolveEvent { s with mip_subiter := 0 } false :: rest := by
  simp only [mainPhase]
  split
  next => exact ⟨[], rfl⟩
  next =>
    split
    next => exact ⟨[], rfl⟩
    next => exact ⟨_, rfl⟩

theorem loopBody_head (cfg : Config) (env : Env) (s : SState) :
    ∃ rest, (loopBody cfg env s).1 =
      mainSolveEvent { s with mip_subiter := 0 } false :: rest := by
  obtain ⟨rest, hr⟩ := mainPhase_head cfg env s
  simp only [loopBody]
  split
  next ev s1 b heq =>
    exact ⟨rest, (show ev = (mainPhase cfg env s).1 by rw [heq]).trans hr⟩
  next ev s1 heq =>
    have hev : ev = (mainPhase cfg env s).1 := by rw [heq]
    split
    next => exact ⟨rest, hev.trans hr⟩
    next =>
      refine ⟨rest ++ (subPhase cfg env
        (algorithmShouldTerminate cfg true s1).2).1, ?_⟩
      show ev ++ _ = _
      rw [hev, hr]
      rfl

theorem runLoop_head (cfg : Config) (env : Env) (fuel : Nat) (s : SState) :
    (runLoop cfg env fuel s).1 = [] ∨
    ∃ t rest, (runLoop cfg env fuel s).1 =
      mainSolveEvent t false :: rest := by
  cases fuel with
  | zero => exact Or.inl rfl
  | succ n =>
    simp only [runLoop]
    split
    next =>
      obtain ⟨rest, hr⟩ := loopBody_head cfg env s
      split
      next ev s1 b heq =>
        right
        exact ⟨_, rest, (show ev = (loopBody cfg env s).1 by rw [heq]).trans hr⟩
      next ev s1 heq =>
        right
        refine ⟨{ s with mip_subiter := 0 },
          rest ++ (runLoop cfg env n s1).1, ?_⟩
        show ev ++ _ = _
        rw [show ev = (loopBody cfg env s).1 by rw [heq], hr]
        rfl
    next => exact Or.inl rfl

/- ------------------------------------------------------------------ -/
/- Claim C1                                                           -/
/- ------------------------------------------------------------------ -/

/-- C1: with add_regularization set, every regularized main solve of a
run is issued only with a feasible incumbent present and with the
current dual bound different from the first entry of
dual_bound_progress; and the first main solve of a run is always
non-regularized. -/
theorem mindtpy_C1_regularization_gating (cfg : Config) (env : Env)
    (fuel : Nat) (s : SState)
    (hreg : cfg.add_regularization.isSome = true) :
    (∀ b d d0, Event.mainSolve true b d d0 ∈ (iterationLoop cfg env fuel s).1 →
      b.isSome = true ∧ d ≠ d0) ∧
    (∀ e, (iterationLoop cfg env fuel s).1.find? isMainSolveEv = some e →
      evRegularized e = false) := by
  constructor
  · intro b d d0 hmem
    have hmem2 : Event.mainSolve true b d d0 ∈ (runLoop cfg env fuel s).1 := by
      simp only [iterationLoop] at hmem
      split at hmem
      · simp only [List.mem_append, List.mem_singleton] at hmem
        rcases hmem with h | h
        · exact h
        · cases h
      · exact hmem
    rcases runLoop_class cfg env fuel s _ hmem2 with
      ⟨t, ht⟩ | h | ⟨h, _⟩ | ⟨t, ht, hb, hd, _⟩
    · simp [mainSolveEvent] at ht
    · cases h
    · cases h
    · simp only [mainSolveEvent, Event.mainSolve.injEq] at ht
      obtain ⟨_, hbb, hdd, hdd0⟩ := ht
      rw [hbb, hdd, hdd0]
      exact ⟨hb, hd⟩
  · intro e hf
    rcases runLoop_head cfg env fuel s with hnil | ⟨t, rest, hcons⟩
    · simp only [iterationLoop] at hf
      split at hf
      · rw [hnil] at hf
        simp [isMainSolveEv] at hf
      · rw [hnil] at hf
        simp at hf
    · have hpos : isMainSolveEv (mainSolveEvent t false) = true := rfl
      simp only [iterationLoop] at hf
      split at hf
      · rw [hcons, List.cons_append, List.find?_cons_of_pos _ hpos] at hf
        injection hf with hf
        rw [← hf]
        rfl
      · rw [hcons, List.find?_cons_of_pos _ hpos] at hf
        injection hf with hf
        rw [← hf]
        rfl

/-- An environment whose main solve always reports no results. -/
def envTrivial : Env :=
  { solveMain := fun s => (none, s), solveMainReg := id,
    handleMainOptimal := id, handleMainInfeasible := id,
    handleMainOther := id, solveSub := id, intSolOfMip := fun _ => [],
    poolEntries := fun _ => [], poolAssign := fun _ => [] }

/-- A plain initial solver state: no incumbent, initial dual bound 0 in
a one-entry progress list, primal bound 10. -/
def sInit : SState :=
  { mip_iter := 0, mip_subiter := 0, best_solution_found := none,
    best_solution_found_time := none, primal_bound := 10, dual_bound := 0,
    dual_bound_progress := [0], should_terminate := false,
    termination_reason := none, integer_list := [], curr_int_sol := [],
    objective_sense := Sense.minimize }

/-- Witness for C1 at a concrete input. -/
theorem mindtpy_C1_regularization_gating_witness :
    ({ cfgBase with
       add_regularization := some "level_L1" }).add_regularization.isSome =
      true ∧
    ((∀ b d d0, Event.mainSolve true b d d0 ∈
        (iterationLoop { cfgBase with add_regularization := some "level_L1" }
          envTrivial 1 sInit).1 → b.isSome = true ∧ d ≠ d0) ∧
      (∀ e, (iterationLoop { cfgBase with add_regularization := some "level_L1" }
          envTrivial 1 sInit).1.find? isMainSolveEv = some e →
        evRegularized e = false)) :=
  ⟨rfl, mindtpy_C1_regularization_gating
    { cfgBase with add_regularization := some "level_L1" }
    envTrivial 1 sInit rfl⟩

/- ------------------------------------------------------------------ -/
/- Claim C4                                                           -/
/- ------------------------------------------------------------------ -/

theorem runLoop_no_fix (cfg : Config) (env : Env) (fuel : Nat) (s : SState) :
    Event.fixDualBound ∉ (runLoop cfg env fuel s).1 := by
  intro he
  rcases runLoop_class cfg env fuel s _ he with
    ⟨t, ht⟩ | h | ⟨h, _⟩ | ⟨t, ht, _⟩
  · simp [mainSolveEvent] at ht
  · cases h
  · cases h
  · simp [mainSolveEvent] at ht

/-- C4 (amended): the post-loop bound correction runs if and only if
no-good cuts or the tabu list are enabled, the loop left
should_terminate unset, and add_regularization is None (the last
condition is required by line 320 of the source and missing from the
claim). -/
theorem mindtpy_C4_fix_dual_bound_iff (cfg : Config) (env : Env)
    (fuel : Nat) (s : SState) :
    Event.fixDualBound ∈ (iterationLoop cfg env fuel s).1 ↔
      ((cfg.add_no_good_cuts = true ∨ cfg.use_tabu_list = true) ∧
        (runLoop cfg env fuel s).2.should_terminate = false ∧
        cfg.add_regularization = none) := by
  have hnf := runLoop_no_fix cfg env fuel s
  constructor
  · intro hmem
    simp only [iterationLoop] at hmem
    split at hmem
    next h =>
      refine ⟨h.1, ?_, h.2.2⟩
      simpa using h.2.1
    next h =>
      exact absurd hmem hnf
  · rintro ⟨h1, h2, h3⟩
    simp only [iterationLoop]
    rw [if_pos ⟨h1, by simp [h2], h3⟩]
    simp

/-- Configuration refuting C4 as stated: no-good cuts enabled together
with a regularization strategy. -/
def cfg4c : Config :=
  { cfgBase with
    add_no_good_cuts := true
    add_regularization := some "level_L1"
    iteration_limit := 1 }

/-- Counterexample to C4 as stated: with add_no_good_cuts set, the loop
not terminated by should_terminate, but add_regularization also set,
fix_dual_bound does not run, refuting the claimed biconditional. -/
theorem mindtpy_C4_claim_counterexample :
    ¬ (Event.fixDualBound ∈ (iterationLoop cfg4c envTrivial 1 sInit).1 ↔
        ((cfg4c.add_no_good_cuts = true ∨ cfg4c.use_tabu_list = true) ∧
          (runLoop cfg4c envTrivial 1 sInit).2.should_terminate = false)) := by
  decide

/- ------------------------------------------------------------------ -/
/- Claims C6 and C8                                                   -/
/- ------------------------------------------------------------------ -/

theorem check_config_reg_fields (cfg : Config) :
    (check_config_reg cfg).single_tree = cfg.single_tree ∧
    (check_config_reg cfg).mip_solver = cfg.mip_solver ∧
    (check_config_reg cfg).solution_pool = cfg.solution_pool ∧
    (check_config_reg cfg).heuristic_nonconvex = cfg.heuristic_nonconvex ∧
    (check_config_reg cfg).iteration_limit = cfg.iteration_limit ∧
    (check_config_reg cfg).add_slack = cfg.add_slack := by
  simp only [check_config_reg]
  split_ifs <;> simp

theorem check_config_tail_fields (cfg : Config) :
    (check_config_tail cfg).1.iteration_limit = cfg.iteration_limit ∧
    (check_config_tail cfg).1.solution_pool = cfg.solution_pool ∧
    (check_config_tail cfg).1.single_tree = cfg.single_tree ∧
    (cfg.heuristic_nonconvex = false →
      (check_config_tail cfg).1.add_slack = cfg.add_slack) := by
  simp only [check_config_tail, baseCheckConfig]
  split_ifs <;> simp_all

theorem runLoop_no_pool (cfg : Config) (env : Env) (fuel : Nat) (s : SState)
    (h : cfg.single_tree = true) :
    Event.poolSubSolve ∉ (runLoop cfg env fuel s).1 := by
  intro he
  rcases runLoop_class cfg env fuel s _ he with
    ⟨t, ht⟩ | hh | ⟨_, hst⟩ | ⟨t, ht, _⟩
  · simp [mainSolveEvent] at ht
  · cases hh
  · rw [h] at hst
    cases hst
  · simp [mainSolveEvent] at ht

/-- C6 (amended): with single_tree configured (and the unrecognized
heuristic_nonconvex option at its default False), check_config forces
iteration_limit to 1 and add_slack to False for every combination of the
other options; it leaves config.solution_pool unchanged — solution-pool
processing is instead disabled by the iteration loop itself, whose
solution-pool branch is never taken when single_tree is set. -/
theorem mindtpy_C6_single_tree_forcing (cfg : Config)
    (out : Config × Option String)
    (hst : cfg.single_tree = true)
    (hh : cfg.heuristic_nonconvex = false)
    (hok : check_config cfg = Except.ok out) :
    out.1.iteration_limit = 1 ∧ out.1.add_slack = false ∧
    out.1.solution_pool = cfg.solution_pool ∧
    (∀ env fuel s, Event.poolSubSolve ∉ (runLoop out.1 env fuel s).1) := by
  have hf := check_config_reg_fields cfg
  simp only [check_config] at hok
  rw [if_pos (hf.1.trans hst)] at hok
  split at hok
  next =>
    split at hok
    next =>
      injection hok with hout
      have htl := check_config_tail_fields
        { check_config_reg cfg with
          iteration_limit := 1, add_slack := false, threads := 1 }
      have hhX : ({ check_config_reg cfg with
          iteration_limit := 1, add_slack := false,
          threads := 1 } : Config).heuristic_nonconvex = false :=
        hf.2.2.2.1.trans hh
      have hsingle : out.1.single_tree = true := by
        rw [← hout, htl.2.2.1]
        exact hf.1.trans hst
      refine ⟨?_, ?_, ?_, ?_⟩
      · rw [← hout, htl.1]
      · rw [← hout, htl.2.2.2 hhX]
      · rw [← hout, htl.2.1]
        exact hf.2.2.1
      · intro env fuel s
        exact runLoop_no_pool out.1 env fuel s hsingle
    next =>
      injection hok with hout
      have htl := check_config_tail_fields
        { check_config_reg cfg with
          iteration_limit := 1, add_slack := false }
      have hhX : ({ check_config_reg cfg with
          iteration_limit := 1,
          add_slack := false } : Config).heuristic_nonconvex = false :=
        hf.2.2.2.1.trans hh
      have hsingle : out.1.single_tree = true := by
        rw [← hout, htl.2.2.1]
        exact hf.1.trans hst
      refine ⟨?_, ?_, ?_, ?_⟩
      · rw [← hout, htl.1]
      · rw [← hout, htl.2.2.2 hhX]
      · rw [← hout, htl.2.1]
        exact hf.2.2.1
      · intro env fuel s
        exact runLoop_no_pool out.1 env fuel s hsingle
  next =>
    cases hok

/-- Configuration for the C6 counterexample and witness: single-tree
mode requested together with the solution pool, on a solver that
supports lazy callbacks. -/
def cfg6c : Config :=
  { cfgBase with
    single_tree := true
    solution_pool := true
    mip_solver := "cplex_persistent" }

/-- Counterexample to C6 as stated: configuration checking accepts this
single-tree configuration but does not disable solution_pool — the flag
is still true after check_config. -/
theorem mindtpy_C6_claim_counterexample :
    cfg6c.single_tree = true ∧ cfg6c.solution_pool = true ∧
    (check_config cfg6c).toOption.map (fun out => out.1.solution_pool) =
      some true := by
  decide

/-- Witness for the amended C6 at a concrete input. -/
theorem mindtpy_C6_single_tree_forcing_witness :
    cfg6c.single_tree = true ∧ cfg6c.heuristic_nonconvex = false ∧
    ∃ out, check_config cfg6c = Except.ok out ∧
      out.1.iteration_limit = 1 ∧ out.1.add_slack = false ∧
      out.1.solution_pool = cfg6c.solution_pool ∧
      (∀ env fuel s, Event.poolSubSolve ∉ (runLoop out.1 env fuel s).1) :=
  ⟨rfl, rfl, _, rfl,
    mindtpy_C6_single_tree_forcing cfg6c _ rfl rfl rfl⟩

/-- C8: requesting single-tree mode with a MILP solver that is neither
cplex_persistent nor gurobi_persistent makes check_config raise the
ValueError, and solve propagates exactly that error while emitting no
solver events at all — the failure happens at setup, before any model
setup or solver call, never mid-loop. -/
theorem mindtpy_C8_single_tree_solver_error (cfg0 : Config)
    (senv : SolveEnv) (M0 : MUtils) (wm : WModel) (handleable : List Nat)
    (pb pt : Option Nat) (fuel : Nat)
    (h1 : cfg0.single_tree = true)
    (h2 : cfg0.mip_solver ≠ "cplex_persistent")
    (h3 : cfg0.mip_solver ≠ "gurobi_persistent") :
    check_config cfg0 = Except.error lpnlpErrorText ∧
    solve cfg0 senv M0 wm handleable pb pt fuel =
      ([], Except.error lpnlpErrorText) := by
  have hf := check_config_reg_fields cfg0
  have hcc : check_config cfg0 = Except.error lpnlpErrorText := by
    simp only [check_config]
    rw [if_pos (hf.1.trans h1)]
    rw [if_neg ?hcond]
    case hcond =>
      intro hor
      have hms : ({ check_config_reg cfg0 with
          iteration_limit := 1,
          add_slack := false } : Config).mip_solver = cfg0.mip_solver :=
        hf.2.1
      rw [hms] at hor
      rcases hor with h | h
      · exact h2 h
      · exact h3 h
  refine ⟨hcc, ?_⟩
  unfold solve
  rw [hcc]

/-- Configuration for the C8 witness: single-tree mode with a
non-persistent MILP solver. -/
def cfg8w : Config := { cfgBase with single_tree := true }

/-- A trivial solve environment for concrete witnesses. -/
def senvTrivial : SolveEnv :=
  { setUpSolveData := sInit, modelIsValid := true, processObjective := id,
    runInitStrategy := id, loopEnv := envTrivial }

/-- MindtPy_utils attributes for concrete witnesses. -/
def mUtilsW : MUtils := ⟨[⟨false, Sense.minimize, some 1⟩], true, true⟩

/-- Witness for C8 at a concrete input. -/
theorem mindtpy_C8_single_tree_solver_error_witness :
    (cfg8w.single_tree = true ∧ cfg8w.mip_solver ≠ "cplex_persistent" ∧
      cfg8w.mip_solver ≠ "gurobi_persistent") ∧
    (check_config cfg8w = Except.error lpnlpErrorText ∧
      solve cfg8w senvTrivial mUtilsW wm9w [] none none 1 =
        ([], Except.error lpnlpErrorText)) :=
  ⟨⟨rfl, by decide, by decide⟩,
    mindtpy_C8_single_tree_solver_error cfg8w senvTrivial mUtilsW wm9w []
      none none 1 rfl (by decide) (by decide)⟩

/- ------------------------------------------------------------------ -/
/- Claim C2                                                           -/
/- ------------------------------------------------------------------ -/

/-- C2: when the integer assignment produced by a main solve is already
in the explored set, neither no-good cuts nor the tabu list are enabled,
and no higher-priority rule fires (state not already terminal, iteration
limit not reached, gap not converged), the termination check with
cycling detection that runs right after the main solve breaks the loop
in that same iteration: the run emits no further solver events and ends
with the cycling termination reason and should_terminate set. -/
theorem mindtpy_C2_cycling_stop (cfg : Config) (env : Env) (fuel : Nat)
    (s : SState)
    (hbr : (mainPhase cfg env s).2.2 = none)
    (hst : (mainPhase cfg env s).2.1.should_terminate = false)
    (hlim : (mainPhase cfg env s).2.1.mip_iter < cfg.iteration_limit)
    (hgap : cfg.absolute_bound_tolerance < absGap (mainPhase cfg env s).2.1)
    (hmem : (mainPhase cfg env s).2.1.curr_int_sol ∈
      (mainPhase cfg env s).2.1.integer_list)
    (hng : cfg.add_no_good_cuts = false)
    (htb : cfg.use_tabu_list = false)
    (henter : s.mip_iter < cfg.iteration_limit) :
    (runLoop cfg env (fuel + 1) s).1 = (mainPhase cfg env s).1 ∧
    (runLoop cfg env (fuel + 1) s).2.termination_reason =
      some TermReason.cycling ∧
    (runLoop cfg env (fuel + 1) s).2.should_terminate = true := by
  rcases hmpeq : mainPhase cfg env s with ⟨ev, s1, br⟩
  rw [hmpeq] at hbr hst hlim hgap hmem
  have hbr2 : br = none := hbr
  subst hbr2
  have hst2 : s1.should_terminate = false := hst
  have hlim2 : s1.mip_iter < cfg.iteration_limit := hlim
  have hgap2 : cfg.absolute_bound_tolerance < absGap s1 := hgap
  have hmem2 : s1.curr_int_sol ∈ s1.integer_list := hmem
  have hast : algorithmShouldTerminate cfg true s1 =
      (true, { s1 with
               should_terminate := true
               termination_reason := some TermReason.cycling }) := by
    unfold algorithmShouldTerminate
    rw [if_neg (by simp [hst2]), if_neg (by omega), if_neg (by omega),
      if_pos ⟨rfl, hmem2, by simp [hng], by simp [htb]⟩]
  have hlb : loopBody cfg env s =
      (ev, { s1 with
             should_terminate := true
             termination_reason := some TermReason.cycling },
        some BreakKind.terminated) := by
    simp only [loopBody, hmpeq, hast, if_true]
  have hrl : runLoop cfg env (fuel + 1) s =
      (ev, { s1 with
             should_terminate := true
             termination_reason := some TermReason.cycling }) := by
    simp only [runLoop]
    rw [if_pos henter, hlb]
  rw [hrl]
  exact ⟨rfl, rfl, rfl⟩

/-- Environment for the C2 witness: the main solve reports an optimal
result without touching the state. -/
def env2w : Env :=
  { envTrivial with solveMain := fun s => (some MainTc.optimal, s) }

/-- State for the C2 witness: the assignment produced by the main solve
is already in the explored set. -/
def s2w : SState :=
  { sInit with integer_list := [[1]], curr_int_sol := [1] }

/-- Witness for C2 at a concrete input. -/
theorem mindtpy_C2_cycling_stop_witness :
    ((mainPhase cfgBase env2w s2w).2.2 = none ∧
     (mainPhase cfgBase env2w s2w).2.1.should_terminate = false ∧
     (mainPhase cfgBase env2w s2w).2.1.mip_iter < cfgBase.iteration_limit ∧
     cfgBase.absolute_bound_tolerance <
       absGap (mainPhase cfgBase env2w s2w).2.1 ∧
     (mainPhase cfgBase env2w s2w).2.1.curr_int_sol ∈
       (mainPhase cfgBase env2w s2w).2.1.integer_list ∧
     cfgBase.add_no_good_cuts = false ∧ cfgBase.use_tabu_list = false ∧
     s2w.mip_iter < cfgBase.iteration_limit) ∧
    ((runLoop cfgBase env2w 1 s2w).1 = (mainPhase cfgBase env2w s2w).1 ∧
     (runLoop cfgBase env2w 1 s2w).2.termination_reason =
       some TermReason.cycling ∧
     (runLoop cfgBase env2w 1 s2w).2.should_terminate = true) :=
  ⟨by decide,
    mindtpy_C2_cycling_stop cfgBase env2w 0 s2w (by decide) (by decide)
      (by decide) (by decide) (by decide) (by decide) (by decide)
      (by decide)⟩

/- ------------------------------------------------------------------ -/
/- Claim C7                                                           -/
/- ------------------------------------------------------------------ -/

theorem poolLoop_spec (cfg : Config) (env : Env) (l : List (Nat × Int)) :
    ∀ counter s,
      counter ≤ (poolLoop cfg env l counter s).counter ∧
      (poolLoop cfg env l counter s).events.length =
        (poolLoop cfg env l counter s).counter - counter ∧
      (counter < cfg.num_solution_iteration →
        (poolLoop cfg env l counter s).brokeTerm = false →
        ((poolLoop cfg env l counter s).counter =
            cfg.num_solution_iteration ∨
          (poolLoop cfg env l counter s).remaining = [])) := by
  induction l with
  | nil =>
    intro counter s
    refine ⟨le_refl _, by simp [poolLoop], ?_⟩
    intro _ _
    exact Or.inr rfl
  | cons p rest ih =>
    intro counter s
    rcases p with ⟨name, obj⟩
    by_cases h1 : 1 ≤ counter
    · by_cases h2 : env.poolAssign name ∈ s.integer_list
      · have heq : poolLoop cfg env ((name, obj) :: rest) counter s =
            poolLoop cfg env rest counter
              { s with curr_int_sol := env.poolAssign name } := by
          simp only [poolLoop]
          rw [if_pos h1, if_pos (show ({ s with
            curr_int_sol := env.poolAssign name } : SState).curr_int_sol ∈
            ({ s with curr_int_sol := env.poolAssign name } :
              SState).integer_list from h2)]
        rw [heq]
        exact ih counter _
      · by_cases h3 : (algorithmShouldTerminate cfg false
            (env.solveSub { s with
              curr_int_sol := env.poolAssign name
              integer_list := s.integer_list ++ [env.poolAssign name] })).1 =
            true
        · have heq : poolLoop cfg env ((name, obj) :: rest) counter s =
              ⟨[Event.poolSubSolve],
                (algorithmShouldTerminate cfg false
                  (env.solveSub { s with
                    curr_int_sol := env.poolAssign name
                    integer_list :=
                      s.integer_list ++ [env.poolAssign name] })).2,
                true, rest, counter + 1⟩ := by
            simp only [poolLoop]
            rw [if_pos h1, if_neg (show ¬(({ s with
              curr_int_sol := env.poolAssign name } : SState).curr_int_sol ∈
              ({ s with curr_int_sol := env.poolAssign name } :
                SState).integer_list) from h2), if_pos h3]
          rw [heq]
          refine ⟨Nat.le_succ counter, by simp, ?_⟩
          intro _ hbt
          cases hbt
        · by_cases h4 : cfg.num_solution_iteration ≤ counter + 1
          · have heq : poolLoop cfg env ((name, obj) :: rest) counter s =
                ⟨[Event.poolSubSolve],
                  (algorithmShouldTerminate cfg false
                    (env.solveSub { s with
                      curr_int_sol := env.poolAssign name
                      integer_list :=
                        s.integer_list ++ [env.poolAssign name] })).2,
                  false, rest, counter + 1⟩ := by
              simp only [poolLoop]
              rw [if_pos h1, if_neg (show ¬(({ s with
                curr_int_sol := env.poolAssign name } : SState).curr_int_sol ∈
                ({ s with curr_int_sol := env.poolAssign name } :
                  SState).integer_list) from h2), if_neg h3, if_pos h4]
            rw [heq]
            refine ⟨Nat.le_succ counter, by simp, ?_⟩
            intro hlt _
            left
            show counter + 1 = cfg.num_solution_iteration
            omega
          · have heq : poolLoop cfg env ((name, obj) :: rest) counter s =
                ⟨Event.poolSubSolve :: (poolLoop cfg env rest (counter + 1)
                    (algorithmShouldTerminate cfg false
                      (env.solveSub { s with
                        curr_int_sol := env.poolAssign name
                        integer_list :=
                          s.integer_list ++
                            [env.poolAssign name] })).2).events,
                  (poolLoop cfg env rest (counter + 1)
                    (algorithmShouldTerminate cfg false
                      (env.solveSub { s with
                        curr_int_sol := env.poolAssign name
                        integer_list :=
                          s.integer_list ++
                            [env.poolAssign name] })).2).state,
                  (poolLoop cfg env rest (counter + 1)
                    (algorithmShouldTerminate cfg false
                      (env.solveSub { s with
                        curr_int_sol := env.poolAssign name
                        integer_list :=
                          s.integer_list ++
                            [env.poolAssign name] })).2).brokeTerm,
                  (poolLoop cfg env rest (counter + 1)
                    (algorithmShouldTerminate cfg false
                      (env.solveSub { s with
                        curr_int_sol := env.poolAssign name
                        integer_list :=
                          s.integer_list ++
                            [env.poolAssign name] })).2).remaining,
                  (poolLoop cfg env rest (counter + 1)
                    (algorithmShouldTerminate cfg false
                      (env.solveSub { s with
                        curr_int_sol := env.poolAssign name
                        integer_list :=
                          s.integer_list ++
                            [env.poolAssign name] })).2).counter⟩ := by
              simp only [poolLoop]
              rw [if_pos h1, if_neg (show ¬(({ s with
                curr_int_sol := env.poolAssign name } : SState).curr_int_sol ∈
                ({ s with curr_int_sol := env.poolAssign name } :
                  SState).integer_list) from h2), if_neg h3, if_neg h4]
            have hcounter : (poolLoop cfg env ((name, obj) :: rest)
                counter s).counter =
                (poolLoop cfg env rest (counter + 1)
                  (algorithmShouldTerminate cfg false
                    (env.solveSub { s with
                      curr_int_sol := env.poolAssign name
                      integer_list :=
                        s.integer_list ++
                          [env.poolAssign name] })).2).counter := by
              rw [heq]
            have hevents : (poolLoop cfg env ((name, obj) :: rest)
                counter s).events =
                Event.poolSubSolve :: (poolLoop cfg env rest (counter + 1)
                  (algorithmShouldTerminate cfg false
                    (env.solveSub { s with
                      curr_int_sol := env.poolAssign name
                      integer_list :=
                        s.integer_list ++
                          [env.poolAssign name] })).2).events := by
              rw [heq]
            have hbroke : (poolLoop cfg env ((name, obj) :: rest)
                counter s).brokeTerm =
                (poolLoop cfg env rest (counter + 1)
                  (algorithmShouldTerminate cfg false
                    (env.solveSub { s with
                      curr_int_sol := env.poolAssign name
                      integer_list :=
                        s.integer_list ++
                          [env.poolAssign name] })).2).brokeTerm := by
              rw [heq]
            have hrem : (poolLoop cfg env ((name, obj) :: rest)
                counter s).remaining =
                (poolLoop cfg env rest (counter + 1)
                  (algorithmShouldTerminate cfg false
                    (env.solveSub { s with
                      curr_int_sol := env.poolAssign name
                      integer_list :=
                        s.integer_list ++
                          [env.poolAssign name] })).2).remaining := by
              rw [heq]
            obtain ⟨ihm, ihl, ihs⟩ := ih (counter + 1)
              ((algorithmShouldTerminate cfg false
                (env.solveSub { s with
                  curr_int_sol := env.poolAssign name
                  integer_list :=
                    s.integer_list ++ [env.poolAssign name] })).2)
            refine ⟨?_, ?_, ?_⟩
            · rw [hcounter]
              omega
            · rw [hevents, hcounter, List.length_cons, ihl]
              omega
            · intro _ hbt
              rw [hbroke] at hbt
              rw [hcounter, hrem]
              exact ihs (by omega) hbt
    · by_cases h3 : (algorithmShouldTerminate cfg false
          (env.solveSub s)).1 = true
      · have heq : poolLoop cfg env ((name, obj) :: rest) counter s =
            ⟨[Event.poolSubSolve],
              (algorithmShouldTerminate cfg false (env.solveSub s)).2,
              true, rest, counter + 1⟩ := by
          simp only [poolLoop]
          rw [if_neg h1, if_pos h3]
        rw [heq]
        refine ⟨Nat.le_succ counter, by simp, ?_⟩
        intro _ hbt
        cases hbt
      · by_cases h4 : cfg.num_solution_iteration ≤ counter + 1
        · have heq : poolLoop cfg env ((name, obj) :: rest) counter s =
              ⟨[Event.poolSubSolve],
                (algorithmShouldTerminate cfg false (env.solveSub s)).2,
                false, rest, counter + 1⟩ := by
            simp only [poolLoop]
            rw [if_neg h1, if_neg h3, if_pos h4]
          rw [heq]
          refine ⟨Nat.le_succ counter, by simp, ?_⟩
          intro hlt _
          left
          show counter + 1 = cfg.num_solution_iteration
          omega
        · have heq : poolLoop cfg env ((name, obj) :: rest) counter s =
              ⟨Event.poolSubSolve :: (poolLoop cfg env rest (counter + 1)
                  (algorithmShouldTerminate cfg false
                    (env.solveSub s)).2).events,
                (poolLoop cfg env rest (counter + 1)
                  (algorithmShouldTerminate cfg false
                    (env.solveSub s)).2).state,
                (poolLoop cfg env rest (counter + 1)
                  (algorithmShouldTerminate cfg false
                    (env.solveSub s)).2).brokeTerm,
                (poolLoop cfg env rest (counter + 1)
                  (algorithmShouldTerminate cfg false
                    (env.solveSub s)).2).remaining,
                (poolLoop cfg env rest (counter + 1)
                  (algorithmShouldTerminate cfg false
                    (env.solveSub s)).2).counter⟩ := by
            simp only [poolLoop]
            rw [if_neg h1, if_neg h3, if_neg h4]
          have hcounter : (poolLoop cfg env ((name, obj) :: rest)
              counter s).counter =
              (poolLoop cfg env rest (counter + 1)
                (algorithmShouldTerminate cfg false
                  (env.solveSub s)).2).counter := by
            rw [heq]
          have hevents : (poolLoop cfg env ((name, obj) :: rest)
              counter s).events =
              Event.poolSubSolve :: (poolLoop cfg env rest (counter + 1)
                (algorithmShouldTerminate cfg false
                  (env.solveSub s)).2).events := by
            rw [heq]
          have hbroke : (poolLoop cfg env ((name, obj) :: rest)
              counter s).brokeTerm =
              (poolLoop cfg env rest (counter + 1)
                (algorithmShouldTerminate cfg false
                  (env.solveSub s)).2).brokeTerm := by
            rw [heq]
          have hrem : (poolLoop cfg env ((name, obj) :: rest)
              counter s).remaining =
              (poolLoop cfg env rest (counter + 1)
                (algorithmShouldTerminate cfg false
                  (env.solveSub s)).2).remaining := by
            rw [heq]
          obtain ⟨ihm, ihl, ihs⟩ := ih (counter + 1)
            ((algorithmShouldTerminate cfg false (env.solveSub s)).2)
          refine ⟨?_, ?_, ?_⟩
          · rw [hcounter]
            omega
          · rw [hevents, hcounter, List.length_cons, ihl]
            omega
          · intro _ hbt
            rw [hbroke] at hbt
            rw [hcounter, hrem]
            exact ihs (by omega) hbt

theorem poolLoop_skip (cfg : Config) (env : Env) (name : Nat) (obj : Int)
    (rest : List (Nat × Int)) (counter : Nat) (s : SState)
    (hc : 1 ≤ counter) (hmem : env.poolAssign name ∈ s.integer_list) :
    poolLoop cfg env ((name, obj) :: rest) counter s =
      poolLoop cfg env rest counter
        { s with curr_int_sol := env.poolAssign name } := by
  simp only [poolLoop]
  rw [if_pos hc, if_pos (show ({ s with
    curr_int_sol := env.poolAssign name } : SState).curr_int_sol ∈
    ({ s with curr_int_sol := env.poolAssign name } :
      SState).integer_list from hmem)]

/-- C7: solution-pool entries are processed in objective order respecting
the optimization sense (the sorted pool is ascending for minimization
and descending for maximization); an entry whose integer assignment is
already in the explored set is dropped without a subproblem solve (its
only effect is recording the assignment read from the pool); and, when
the termination check never fires, subproblem solving stops exactly when
the counter of processed entries reaches num_solution_iteration or the
pool is exhausted — each processed entry accounting for exactly one
subproblem solve event. -/
theorem mindtpy_C7_solution_pool (cfg : Config) (env : Env) (sense : Sense)
    (l : List (Nat × Int)) :
    ((sortPool sense l).Pairwise fun a b =>
      match sense with
      | Sense.minimize => a.2 ≤ b.2
      | Sense.maximize => b.2 ≤ a.2) ∧
    (∀ name obj rest counter s, 1 ≤ counter →
      env.poolAssign name ∈ s.integer_list →
      poolLoop cfg env ((name, obj) :: rest) counter s =
        poolLoop cfg env rest counter
          { s with curr_int_sol := env.poolAssign name }) ∧
    (∀ entries counter s, counter < cfg.num_solution_iteration →
      (poolLoop cfg env entries counter s).brokeTerm = false →
      ((poolLoop cfg env entries counter s).counter =
          cfg.num_solution_iteration ∨
        (poolLoop cfg env entries counter s).remaining = [])) ∧
    (∀ entries counter s,
      (poolLoop cfg env entries counter s).events.length =
        (poolLoop cfg env entries counter s).counter - counter) := by
  refine ⟨?_, ?_, ?_, ?_⟩
  · cases sense with
    | minimize =>
      have hs := @List.sorted_mergeSort (Nat × Int)
        (fun a b => decide (a.2 ≤ b.2))
        (fun a b c hab hbc => by
          simp only [decide_eq_true_eq] at hab hbc ⊢
          omega)
        (fun a b => by
          rcases Int.le_total a.2 b.2 with h | h <;> simp [h]) l
      exact hs.imp (fun h => by simpa using h)
    | maximize =>
      have hs := @List.sorted_mergeSort (Nat × Int)
        (fun a b => decide (b.2 ≤ a.2))
        (fun a b c hab hbc => by
          simp only [decide_eq_true_eq] at hab hbc ⊢
          omega)
        (fun a b => by
          rcases Int.le_total b.2 a.2 with h | h <;> simp [h]) l
      exact hs.imp (fun h => by simpa using h)
  · intro name obj rest counter s hc hmem
    exact poolLoop_skip cfg env name obj rest counter s hc hmem
  · intro entries counter s hlt hbt
    exact (poolLoop_spec cfg env entries counter s).2.2 hlt hbt
  · intro entries counter s
    exact (poolLoop_spec cfg env entries counter s).2.1

/-- Configuration for the C7 witness: an exploration cap of one. -/
def cfg7w : Config :=
  { cfgBase with num_solution_iteration := 1, solution_pool := true }

/-- Environment for the C7 witness: every pool entry carries the
assignment [0]. -/
def env7w : Env := { envTrivial with poolAssign := fun _ => [0] }

/-- State for the C7 witness: [0] is already explored. -/
def s7w : SState := { sInit with integer_list := [[0]], curr_int_sol := [5] }

/-- A one-entry solution pool for the C7 witness. -/
def pool7w : List (Nat × Int) := [(7, 2)]

/-- Witness for C7 at a concrete input. -/
theorem mindtpy_C7_solution_pool_witness :
    ((1 : Nat) ≤ 1 ∧ env7w.poolAssign 5 ∈ s7w.integer_list ∧
      0 < cfg7w.num_solution_iteration ∧
      (poolLoop cfg7w env7w pool7w 0 s7w).brokeTerm = false) ∧
    (poolLoop cfg7w env7w ((5, 3) :: pool7w) 1 s7w =
      poolLoop cfg7w env7w pool7w 1
        { s7w with curr_int_sol := env7w.poolAssign 5 }) ∧
    ((poolLoop cfg7w env7w pool7w 0 s7w).counter =
        cfg7w.num_solution_iteration ∨
      (poolLoop cfg7w env7w pool7w 0 s7w).remaining = []) :=
  ⟨by decide,
    (mindtpy_C7_solution_pool cfg7w env7w Sense.minimize []).2.1 5 3 pool7w 1
      s7w (by decide) (by decide),
    (mindtpy_C7_solution_pool cfg7w env7w Sense.minimize []).2.2.1 pool7w 0
      s7w (by decide) (by decide)⟩
